import Mathlib

/-!
Shallow embedding of the backend service in `src/backend/src/main.rs`:
a Rocket HTTP service exposing CRUD routes over one `users` table held
in PostgreSQL, accessed via tokio_postgres with parameterized statements.

The database is modelled as a `Store`: the list of rows of the `users`
table (created at startup as `id SERIAL PRIMARY KEY, name TEXT NOT NULL,
email TEXT NOT NULL`) together with the next value of the SERIAL id
sequence.  Each SQL statement issued by the code is a constructor of
`Stmt` carrying its bound parameters; `sqlText` gives the fixed SQL text
of each statement and `execStmt` its semantics on the store.  Driver
failures are external nondeterminism: each statement execution in a
handler takes an `Option String` fault argument, `some e` meaning the
driver fails with error text `e` (the handler then maps it to
`Custom(Status.InternalServerError, e.to_string())`, i.e. HTTP 500
with the error text as body).
-/

/-- One row of the `users` table. `name` and `email` are TEXT NOT NULL,
`id` comes from the SERIAL sequence. -/
structure Row where
  id : Int
  name : String
  email : String
deriving DecidableEq, Repr

/-- The state of the database: rows of `users` plus the next SERIAL id. -/
structure Store where
  rows : List Row
  nextId : Int
deriving DecidableEq, Repr

/-- The store right after startup: `CREATE TABLE IF NOT EXISTS users ...`
leaves an empty table and the SERIAL sequence starts at 1. -/
def initStore : Store := { rows := [], nextId := 1 }

/-- The `User` struct of main.rs: id is `Option<i32>`, name and email
are `String`. -/
structure User where
  id : Option Int
  name : String
  email : String
deriving DecidableEq, Repr

/-- A value bound to a `$n` placeholder (via `ToSql`): the code only
binds text values and i32 ids. -/
inductive Param where
  | str (s : String)
  | int (i : Int)
deriving DecidableEq, Repr

/-- The statements the code issues, each carrying its bound parameters. -/
inductive Stmt where
  | insertUsers (name email : String)
  | updateUsers (name email : String) (id : Int)
  | deleteUsers (id : Int)
  | selectUsers
deriving DecidableEq, Repr

/-- The SQL text sent to the driver: a fixed string per statement,
independent of the bound parameter values. -/
def sqlText : Stmt → String
  | .insertUsers _ _ => "INSERT INTO users (name, email) VALUES ($1, $2)"
  | .updateUsers _ _ _ => "UPDATE users SET name = $1, email = $2 WHERE id = $3"
  | .deleteUsers _ => "DELETE FROM users WHERE id = $1"
  | .selectUsers => "SELECT id, name, email FROM users"

/-- The parameters bound to the placeholders of each statement, in order. -/
def boundParams : Stmt → List Param
  | .insertUsers n e => [.str n, .str e]
  | .updateUsers n e i => [.str n, .str e, .int i]
  | .deleteUsers i => [.int i]
  | .selectUsers => []

/-- Semantics of a successfully executed statement on the store: the new
store and the number of rows affected (the `u64` returned by
`Client.execute`).  Parameter values enter only as data. -/
def execStmt : Stmt → Store → Store × Nat
  | .insertUsers n e, s =>
      ({ rows := s.rows ++ [{ id := s.nextId, name := n, email := e }],
         nextId := s.nextId + 1 }, 1)
  | .updateUsers n e i, s =>
      ({ rows := s.rows.map (fun r =>
           if r.id == i then { id := r.id, name := n, email := e } else r),
         nextId := s.nextId },
       (s.rows.filter (fun r => r.id == i)).length)
  | .deleteUsers i, s =>
      ({ rows := s.rows.filter (fun r => !(r.id == i)),
         nextId := s.nextId },
       (s.rows.filter (fun r => r.id == i)).length)
  | .selectUsers, s => (s, s.rows.length)

/-- Rocket response `Custom<String>`: an HTTP status plus a string body.
The code only builds it with `Status.InternalServerError` (500). -/
structure Custom where
  status : Nat
  body : String
deriving DecidableEq, Repr

/-- `execute_query` of main.rs: sends one statement on the shared client;
on driver failure (fault `some e`) the store is untouched and the error
is mapped to `Custom(500, e)`; on success it returns the affected count. -/
def execute_query (s : Store) (stmt : Stmt) (fault : Option String) :
    Store × Except Custom Nat :=
  match fault with
  | some e => (s, Except.error { status := 500, body := e })
  | none => ((execStmt stmt s).1, Except.ok (execStmt stmt s).2)

/-- Row-to-entity mapping of `get_users_from_db`:
`User { id: Some(row.get(0)), name: row.get(1), email: row.get(2) }`. -/
def rowToUser (r : Row) : User :=
  { id := some r.id, name := r.name, email := r.email }

/-- `get_users_from_db` of main.rs: runs the SELECT; on driver failure it
returns `Custom(500, e)`, otherwise the rows mapped to `User` values. -/
def get_users_from_db (s : Store) (fault : Option String) :
    Except Custom (List User) :=
  match fault with
  | some e => Except.error { status := 500, body := e }
  | none => Except.ok (s.rows.map rowToUser)

/-- `get_users` of main.rs (the GET handler): `get_users_from_db`
followed by the transparent `Json` wrapper. -/
def get_users (s : Store) (fault : Option String) : Except Custom (List User) :=
  get_users_from_db s fault

/-- `add_user` of main.rs (the POST handler): INSERT with the body name
and email bound as `$1, $2` (the body id is never read), then the full
list.  Returns the store after the request, the statements issued, and
the handler result.  `insF` and `selF` are the driver fault injections
for the INSERT and the follow-up SELECT. -/
def add_user (s : Store) (user : User) (insF selF : Option String) :
    Store × List Stmt × Except Custom (List User) :=
  match execute_query s (.insertUsers user.name user.email) insF with
  | (s1, Except.error c) => (s1, [.insertUsers user.name user.email], Except.error c)
  | (s1, Except.ok _) =>
      (s1, [.insertUsers user.name user.email, .selectUsers], get_users s1 selF)

/-- `update_user` of main.rs (the PUT handler): UPDATE matching the path
id with the body name and email bound as parameters (the body id is
never read), then the full list. -/
def update_user (s : Store) (id : Int) (user : User) (updF selF : Option String) :
    Store × List Stmt × Except Custom (List User) :=
  match execute_query s (.updateUsers user.name user.email id) updF with
  | (s1, Except.error c) => (s1, [.updateUsers user.name user.email id], Except.error c)
  | (s1, Except.ok _) =>
      (s1, [.updateUsers user.name user.email id, .selectUsers], get_users s1 selF)

/-- `delete_user` of main.rs (the DELETE handler): DELETE matching the
path id, then `Ok(Status.NoContent)`. -/
def delete_user (s : Store) (id : Int) (delF : Option String) :
    Store × List Stmt × Except Custom Unit :=
  match execute_query s (.deleteUsers id) delF with
  | (s1, Except.error c) => (s1, [.deleteUsers id], Except.error c)
  | (s1, Except.ok _) => (s1, [.deleteUsers id], Except.ok ())

/-- The HTTP response Rocket renders from a handler result. -/
inductive Response where
  | okJson (users : List User)
  | noContent
  | err (status : Nat) (body : String)
  | notFound
deriving DecidableEq, Repr

/-- The HTTP status code of a rendered response: `Ok(Json(..))` is 200,
`Ok(Status.NoContent)` is 204, `Err(Custom(st, _))` is `st`, and a
request matching no route is 404. -/
def Response.statusCode : Response → Nat
  | .okJson _ => 200
  | .noContent => 204
  | .err st _ => st
  | .notFound => 404

/-- Whether the rendered response has an empty body: only the 204
`Status.NoContent` response does. -/
def Response.emptyBody : Response → Bool
  | .noContent => true
  | _ => false

/-- Rendering of a `Result<Json<Vec<User>>, Custom<String>>`. -/
def render : Except Custom (List User) → Response
  | Except.ok us => .okJson us
  | Except.error c => .err c.status c.body

/-- Rendering of a `Result<Status, Custom<String>>` where the Ok value
is `Status.NoContent`. -/
def renderDelete : Except Custom Unit → Response
  | Except.ok _ => .noContent
  | Except.error c => .err c.status c.body

/-- Largest i32 value. -/
def i32Max : Int := 2147483647

/-- Smallest i32 value. -/
def i32Min : Int := -2147483648

/-- Accumulate decimal digits; fails on any non-digit character. -/
def digitsToNat : List Char → Nat → Option Nat
  | [], acc => some acc
  | c :: cs, acc =>
      if c.isDigit then digitsToNat cs (acc * 10 + (c.toNat - 48)) else none

/-- Rocket path-parameter parsing of `<id>` at type i32 (Rust
`i32::from_str`): an optional sign followed by at least one ASCII
decimal digit, with the value required to fit in i32; anything else is
rejected before the handler runs. -/
def parseI32 (seg : String) : Option Int :=
  let core : List Char → Bool → Option Int := fun cs neg =>
    match cs with
    | [] => none
    | _ =>
        match digitsToNat cs 0 with
        | none => none
        | some n =>
            let v : Int := if neg then -(n : Int) else (n : Int)
            if i32Min ≤ v ∧ v ≤ i32Max then some v else none
  match seg.data with
  | '+' :: rest => core rest false
  | '-' :: rest => core rest true
  | cs => core cs false

/-- One inbound HTTP request, with the driver fault injections for the
statements the request will issue (`none` = the statement succeeds). -/
inductive Request where
  | post (user : User) (insF selF : Option String)
  | get (selF : Option String)
  | put (seg : String) (user : User) (updF selF : Option String)
  | del (seg : String) (delF : Option String)

/-- Routing and handling of one request: mounted routes are
`add_user, get_users, update_user, delete_user`; for PUT and DELETE the
`<id>` segment must parse as i32 or no handler runs (the request falls
through to a 404 with no statement issued).  Returns the store after
the request, the statements issued, and the rendered response. -/
def handle (s : Store) : Request → Store × List Stmt × Response
  | .post u insF selF =>
      let r := add_user s u insF selF
      (r.1, r.2.1, render r.2.2)
  | .get selF => (s, [.selectUsers], render (get_users s selF))
  | .put seg u updF selF =>
      match parseI32 seg with
      | none => (s, [], .notFound)
      | some i =>
          let r := update_user s i u updF selF
          (r.1, r.2.1, render r.2.2)
  | .del seg delF =>
      match parseI32 seg with
      | none => (s, [], .notFound)
      | some i =>
          let r := delete_user s i delF
          (r.1, r.2.1, renderDelete r.2.2)

/-- The server loop: requests are served in order against the shared
connection; each request yields exactly one response and the server
keeps running after any per-request failure. -/
def serve (s : Store) : List Request → List Response
  | [] => []
  | r :: rs =>
      let h := handle s r
      h.2.2 :: serve h.1 rs

/-- The store invariant maintained by the schema: ids (SERIAL PRIMARY
KEY) are pairwise distinct and below the next sequence value. -/
def StoreInv (s : Store) : Prop :=
  (s.rows.map Row.id).Nodup ∧ ∀ r ∈ s.rows, r.id < s.nextId

/-- The injection probe value of section 8 of the spec: a single quote,
then `; DROP TABLE users; --`. -/
def probeName : String :=
  String.mk (Char.ofNat 39 :: "; DROP TABLE users; --".data)

example : parseI32 "12" = some 12 := by decide
example : parseI32 "abc" = none := by decide
example : parseI32 "-5" = some (-5) := by decide
example : parseI32 "2147483648" = none := by decide
example : parseI32 "" = none := by decide
example :
    (add_user initStore { id := none, name := "Ann", email := "ann@x.com" } none none).2.2 =
      Except.ok [{ id := some 1, name := "Ann", email := "ann@x.com" }] := rfl

/-- The server loop yields exactly one response per request. -/
lemma serve_length (s : Store) (reqs : List Request) :
    (serve s reqs).length = reqs.length := by
  induction reqs generalizing s with
  | nil => rfl
  | cons r rs ih => simp [serve, ih]

/-- C1: for every string passed as the name field of a POST body — in
particular the injection probe made of a single quote followed by
`; DROP TABLE users; --` — the INSERT issued by add_user has a fixed SQL
text that does not depend on the payload, the name and email values are
passed only through the bound parameter list, and executing the insert
stores the name string verbatim as data in the name column of the one
appended row, leaving all prior rows intact; so no payload value alters
the schema or executes as SQL. -/
theorem C1_insert_is_parameterized (s : Store) (u : User) :
    sqlText (Stmt.insertUsers u.name u.email) =
      "INSERT INTO users (name, email) VALUES ($1, $2)" ∧
    boundParams (Stmt.insertUsers u.name u.email) =
      [Param.str u.name, Param.str u.email] ∧
    (execStmt (Stmt.insertUsers u.name u.email) s).1.rows =
      s.rows ++ [{ id := s.nextId, name := u.name, email := u.email }] ∧
    (execStmt (Stmt.insertUsers probeName u.email) s).1.rows =
      s.rows ++ [{ id := s.nextId, name := probeName, email := u.email }] ∧
    sqlText (Stmt.insertUsers probeName u.email) =
      sqlText (Stmt.insertUsers u.name u.email) :=
  ⟨rfl, rfl, rfl, rfl, rfl⟩

/-- C7: on every route, a driver failure with error text e during any
statement of the request is rendered as an HTTP 500 response whose body
is exactly e — this covers the INSERT and follow-up SELECT of POST, the
SELECT of GET, the UPDATE and follow-up SELECT of PUT, and the DELETE of
DELETE — and the server loop still produces one response per request, so
a failing request does not stop service of subsequent requests. -/
theorem C7_store_failure_yields_500 (s : Store) (u : User) (i : Int)
    (e : String) (f : Option String) (reqs : List Request) :
    render (add_user s u (some e) f).2.2 = Response.err 500 e ∧
    render (add_user s u none (some e)).2.2 = Response.err 500 e ∧
    render (get_users s (some e)) = Response.err 500 e ∧
    render (update_user s i u (some e) f).2.2 = Response.err 500 e ∧
    render (update_user s i u none (some e)).2.2 = Response.err 500 e ∧
    renderDelete (delete_user s i (some e)).2.2 = Response.err 500 e ∧
    (serve s reqs).length = reqs.length :=
  ⟨rfl, rfl, rfl, rfl, rfl, rfl, serve_length s reqs⟩

/-- C8: the write-then-list sequence is not atomic: when the INSERT of
POST succeeds and the follow-up SELECT fails, the response is a 500
error while the inserted row is already committed in the store (the
store genuinely differs from the pre-request store); likewise for PUT,
the UPDATE remains applied when the follow-up SELECT fails. -/
theorem C8_write_then_list_not_atomic (s : Store) (u : User) (i : Int)
    (e : String) :
    render (add_user s u none (some e)).2.2 = Response.err 500 e ∧
    (add_user s u none (some e)).1.rows =
      s.rows ++ [{ id := s.nextId, name := u.name, email := u.email }] ∧
    (add_user s u none (some e)).1.rows ≠ s.rows ∧
    render (update_user s i u none (some e)).2.2 = Response.err 500 e ∧
    (update_user s i u none (some e)).1.rows =
      s.rows.map (fun r =>
        if r.id == i then { id := r.id, name := u.name, email := u.email }
        else r) := by
  have h2 : (add_user s u none (some e)).1.rows =
      s.rows ++ [{ id := s.nextId, name := u.name, email := u.email }] := rfl
  refine ⟨rfl, h2, ?_, rfl, rfl⟩
  intro hcontra
  rw [h2] at hcontra
  have hlen := congrArg List.length hcontra
  simp at hlen

/-- C2: for every valid body, when both the INSERT and the follow-up
SELECT succeed, POST appends exactly one row with the body name and
email and the freshly assigned id `s.nextId` (which differs from every
existing id), advances the id sequence, and responds 200 with the full
user list: all prior entries unchanged followed by the one new entry;
any id supplied in the body is ignored. -/
theorem C2_post_inserts_and_lists (s : Store) (u : User)
    (hInv : ∀ r ∈ s.rows, r.id < s.nextId) :
    (handle s (Request.post u none none)).1 =
      { rows := s.rows ++ [{ id := s.nextId, name := u.name, email := u.email }],
        nextId := s.nextId + 1 } ∧
    (handle s (Request.post u none none)).2.2 =
      Response.okJson (s.rows.map rowToUser ++
        [{ id := some s.nextId, name := u.name, email := u.email }]) ∧
    Response.statusCode (handle s (Request.post u none none)).2.2 = 200 ∧
    (∀ r ∈ s.rows, r.id ≠ s.nextId) ∧
    (∀ oid, handle s
        (Request.post { id := oid, name := u.name, email := u.email } none none) =
      handle s (Request.post u none none)) := by
  refine ⟨rfl, ?_, rfl, fun r hr => ne_of_lt (hInv r hr), fun oid => rfl⟩
  have hresp : (handle s (Request.post u none none)).2.2 =
      Response.okJson
        ((s.rows ++ [({ id := s.nextId, name := u.name, email := u.email } : Row)]).map
          rowToUser) :=
    rfl
  rw [hresp]
  simp [rowToUser]

/-- C2 witness: posting Ann to the empty store yields the singleton list
with id 1. -/
theorem C2_post_inserts_and_lists_witness :
    (handle initStore
        (Request.post { id := none, name := "Ann", email := "ann@x.com" } none none)).2.2 =
      Response.okJson [{ id := some 1, name := "Ann", email := "ann@x.com" }] := by
  have h := (C2_post_inserts_and_lists initStore
      { id := none, name := "Ann", email := "ann@x.com" } (by simp [initStore])).2.1
  simpa [initStore] using h

/-- C5: for an id matching no row, PUT leaves the store identical,
issues only the UPDATE and the follow-up SELECT, and responds 200 with
the unchanged user list — no distinguishable error. -/
theorem C5_put_nonexistent_id_silent (s : Store) (i : Int) (u : User)
    (h : ∀ r ∈ s.rows, r.id ≠ i) :
    update_user s i u none none =
      (s, [Stmt.updateUsers u.name u.email i, Stmt.selectUsers],
       Except.ok (s.rows.map rowToUser)) ∧
    render (update_user s i u none none).2.2 =
      Response.okJson (s.rows.map rowToUser) ∧
    Response.statusCode (render (update_user s i u none none).2.2) = 200 := by
  have hrows : s.rows.map (fun r =>
      if r.id == i then { id := r.id, name := u.name, email := u.email } else r)
      = s.rows := by
    have hcongr : s.rows.map (fun r =>
        if r.id == i then { id := r.id, name := u.name, email := u.email } else r)
        = s.rows.map id :=
      List.map_congr_left (fun a ha => by simp [h a ha])
    rw [hcongr, List.map_id]
  have hstep : update_user s i u none none =
      ({ rows := s.rows.map (fun r =>
            if r.id == i then { id := r.id, name := u.name, email := u.email } else r),
         nextId := s.nextId },
       [Stmt.updateUsers u.name u.email i, Stmt.selectUsers],
       Except.ok ((s.rows.map (fun r =>
            if r.id == i then { id := r.id, name := u.name, email := u.email } else r)).map
          rowToUser)) := rfl
  rw [hstep, hrows]
  exact ⟨rfl, rfl, rfl⟩

/-- C5 witness: updating id 7 in a store holding only id 1 changes
nothing and reports success with the unchanged list. -/
theorem C5_put_nonexistent_id_silent_witness :
    update_user { rows := [{ id := 1, name := "A", email := "a@x" }], nextId := 2 } 7
        { id := none, name := "B", email := "b@x" } none none =
      ({ rows := [{ id := 1, name := "A", email := "a@x" }], nextId := 2 },
       [Stmt.updateUsers "B" "b@x" 7, Stmt.selectUsers],
       Except.ok [{ id := some 1, name := "A", email := "a@x" }]) := by
  have h := (C5_put_nonexistent_id_silent
      { rows := [{ id := 1, name := "A", email := "a@x" }], nextId := 2 } 7
      { id := none, name := "B", email := "b@x" } (by decide)).1
  simpa [rowToUser] using h

/-- C6: for an id matching no row, DELETE leaves the store identical,
issues only the DELETE statement, surfaces no error, and responds 204
with an empty body. -/
theorem C6_delete_nonexistent_id_silent (s : Store) (i : Int)
    (h : ∀ r ∈ s.rows, r.id ≠ i) :
    delete_user s i none = (s, [Stmt.deleteUsers i], Except.ok ()) ∧
    renderDelete (delete_user s i none).2.2 = Response.noContent ∧
    Response.statusCode (renderDelete (delete_user s i none).2.2) = 204 ∧
    Response.emptyBody (renderDelete (delete_user s i none).2.2) = true := by
  have hrows : s.rows.filter (fun r => !(r.id == i)) = s.rows :=
    List.filter_eq_self.mpr (fun a ha => by simp [h a ha])
  have hstep : delete_user s i none =
      ({ rows := s.rows.filter (fun r => !(r.id == i)), nextId := s.nextId },
       [Stmt.deleteUsers i], Except.ok ()) := rfl
  rw [hstep, hrows]
  exact ⟨rfl, rfl, rfl, rfl⟩

/-- C6 witness: deleting id 7 from a store holding only id 1 changes
nothing and responds 204. -/
theorem C6_delete_nonexistent_id_silent_witness :
    delete_user { rows := [{ id := 1, name := "A", email := "a@x" }], nextId := 2 } 7 none =
      ({ rows := [{ id := 1, name := "A", email := "a@x" }], nextId := 2 },
       [Stmt.deleteUsers 7], Except.ok ()) :=
  (C6_delete_nonexistent_id_silent
    { rows := [{ id := 1, name := "A", email := "a@x" }], nextId := 2 } 7 (by decide)).1

/-- C10: when the id path segment of PUT or DELETE does not parse as an
i32 (non-numeric, or out of the i32 range), no handler runs: the request
falls through to a 404, no statement is issued, the store is unchanged,
and in particular no 500 can be produced. -/
theorem C10_invalid_id_segment (s : Store) (seg : String) (u : User)
    (f g : Option String) (h : parseI32 seg = none) :
    handle s (Request.put seg u f g) = (s, [], Response.notFound) ∧
    handle s (Request.del seg f) = (s, [], Response.notFound) ∧
    Response.statusCode (handle s (Request.put seg u f g)).2.2 ≠ 500 ∧
    Response.statusCode (handle s (Request.del seg f)).2.2 ≠ 500 := by
  have h1 : handle s (Request.put seg u f g) = (s, [], Response.notFound) := by
    simp [handle, h]
  have h2 : handle s (Request.del seg f) = (s, [], Response.notFound) := by
    simp [handle, h]
  refine ⟨h1, h2, ?_, ?_⟩ <;> simp [h1, h2, Response.statusCode]

/-- C10 witness: a non-numeric segment and an out-of-range segment
(2147483648 exceeds the largest i32) are both rejected before any
handler runs. -/
theorem C10_invalid_id_segment_witness :
    (parseI32 "abc" = none ∧
      handle initStore
          (Request.put "abc" { id := none, name := "n", email := "e" } none none) =
        (initStore, [], Response.notFound)) ∧
    (parseI32 "2147483648" = none ∧
      handle initStore (Request.del "2147483648" none) =
        (initStore, [], Response.notFound)) :=
  ⟨⟨by decide, (C10_invalid_id_segment initStore "abc"
      { id := none, name := "n", email := "e" } none none (by decide)).1⟩,
   ⟨by decide, (C10_invalid_id_segment initStore "2147483648"
      { id := none, name := "n", email := "e" } none none (by decide)).2.1⟩⟩

/-- An UPDATE never touches the id column: the id list is unchanged. -/
lemma update_ids_eq (l : List Row) (n e : String) (i : Int) :
    (l.map (fun r =>
        if r.id == i then { id := r.id, name := n, email := e } else r)).map Row.id
      = l.map Row.id := by
  rw [List.map_map]
  exact List.map_congr_left (fun a ha => by by_cases hb : a.id = i <;> simp [hb])

/-- C3: for an id matching an existing row, PUT rewrites the store by the
pointwise UPDATE semantics — the matching row gets the body name and
email while keeping its id, every non-matching row is mapped to itself —
the id column is unchanged as a whole, the updated row is present in the
result, the response is 200 with the full updated list, and any id in
the body is ignored. -/
theorem C3_put_existing_id (s : Store) (i : Int) (u : User)
    (hmem : ∃ r ∈ s.rows, r.id = i) :
    (update_user s i u none none).1 =
      { rows := s.rows.map (fun r =>
          if r.id == i then { id := r.id, name := u.name, email := u.email } else r),
        nextId := s.nextId } ∧
    (update_user s i u none none).1.rows.map Row.id = s.rows.map Row.id ∧
    (∃ r ∈ (update_user s i u none none).1.rows,
      r.id = i ∧ r.name = u.name ∧ r.email = u.email) ∧
    render (update_user s i u none none).2.2 =
      Response.okJson ((update_user s i u none none).1.rows.map rowToUser) ∧
    Response.statusCode (render (update_user s i u none none).2.2) = 200 ∧
    (∀ oid, update_user s i { id := oid, name := u.name, email := u.email } none none =
      update_user s i u none none) := by
  refine ⟨rfl, ?_, ?_, rfl, rfl, fun oid => rfl⟩
  · show (s.rows.map (fun r =>
        if r.id == i then { id := r.id, name := u.name, email := u.email } else r)).map
          Row.id = s.rows.map Row.id
    exact update_ids_eq s.rows u.name u.email i
  · rcases hmem with ⟨r, hr, hri⟩
    refine ⟨if r.id == i then { id := r.id, name := u.name, email := u.email } else r,
      List.mem_map_of_mem _ hr, ?_⟩
    simp [hri]

/-- C3 witness: updating the single row with id 1 overwrites its fields
and keeps its id. -/
theorem C3_put_existing_id_witness :
    (update_user { rows := [{ id := 1, name := "Ann", email := "ann@x.com" }], nextId := 2 } 1
        { id := none, name := "Ann B", email := "annb@x.com" } none none).1 =
      { rows := [{ id := 1, name := "Ann B", email := "annb@x.com" }], nextId := 2 } := by
  have h := (C3_put_existing_id
      { rows := [{ id := 1, name := "Ann", email := "ann@x.com" }], nextId := 2 } 1
      { id := none, name := "Ann B", email := "annb@x.com" } (by decide)).1
  exact h.trans (by decide)

/-- A DELETE keeps every row whose id differs from the target. -/
lemma filter_out_id_of_absent (l : List Row) (i : Int)
    (h : ∀ r ∈ l, r.id ≠ i) : l.filter (fun r => !(r.id == i)) = l :=
  List.filter_eq_self.mpr (fun a ha => by simp [h a ha])

/-- With pairwise distinct ids and a matching row present, the DELETE
removes exactly one row. -/
lemma length_filter_out_id (l : List Row) (i : Int)
    (hN : (l.map Row.id).Nodup) (hm : ∃ r ∈ l, r.id = i) :
    (l.filter (fun r => !(r.id == i))).length + 1 = l.length := by
  induction l with
  | nil => simp at hm
  | cons a t ih =>
      rw [List.map_cons, List.nodup_cons] at hN
      rcases hm with ⟨r, hr, hri⟩
      rcases List.mem_cons.mp hr with heq | hrt
      · have hA : a.id = i := by rw [← heq]; exact hri
        have ht : ∀ x ∈ t, x.id ≠ i := by
          intro x hx hxi
          apply hN.1
          have hmmap : x.id ∈ t.map Row.id := List.mem_map_of_mem _ hx
          rwa [hxi, ← hA] at hmmap
        have hfa : (!(a.id == i)) = false := by simp [hA]
        simp only [List.filter_cons, hfa]
        simp only [Bool.false_eq_true, if_false]
        rw [filter_out_id_of_absent t i ht]
        simp
      · by_cases hai : a.id = i
        · exfalso
          apply hN.1
          have hmmap : r.id ∈ t.map Row.id := List.mem_map_of_mem _ hrt
          rwa [hri, ← hai] at hmmap
        · have hfa : (!(a.id == i)) = true := by simp [hai]
          simp only [List.filter_cons, hfa, if_true, List.length_cons]
          have hih := ih hN.2 ⟨r, hrt, hri⟩
          omega

/-- C4: for an id matching an existing row (ids being pairwise distinct
under the SERIAL primary key), DELETE removes exactly that row — the
result is the original list restricted to the non-matching rows, one
row shorter, with no row carrying the deleted id — the response is 204
with an empty body, and a subsequent successful GET returns the list
without the deleted row. -/
theorem C4_delete_existing_id (s : Store) (i : Int)
    (hN : (s.rows.map Row.id).Nodup) (hmem : ∃ r ∈ s.rows, r.id = i) :
    delete_user s i none =
      ({ rows := s.rows.filter (fun r => !(r.id == i)), nextId := s.nextId },
       [Stmt.deleteUsers i], Except.ok ()) ∧
    (∀ r ∈ (delete_user s i none).1.rows, r.id ≠ i) ∧
    (∀ r ∈ s.rows, r.id ≠ i → r ∈ (delete_user s i none).1.rows) ∧
    (delete_user s i none).1.rows.length + 1 = s.rows.length ∧
    renderDelete (delete_user s i none).2.2 = Response.noContent ∧
    Response.statusCode (renderDelete (delete_user s i none).2.2) = 204 ∧
    Response.emptyBody (renderDelete (delete_user s i none).2.2) = true ∧
    get_users_from_db (delete_user s i none).1 none =
      Except.ok ((s.rows.filter (fun r => !(r.id == i))).map rowToUser) := by
  refine ⟨rfl, ?_, ?_, ?_, rfl, rfl, rfl, rfl⟩
  · intro r hr
    have hr2 : r ∈ s.rows.filter (fun r => !(r.id == i)) := hr
    have hcond := (List.mem_filter.mp hr2).2
    simpa using hcond
  · intro r hr hne
    show r ∈ s.rows.filter (fun r => !(r.id == i))
    exact List.mem_filter.mpr ⟨hr, by simp [hne]⟩
  · exact length_filter_out_id s.rows i hN hmem

/-- C4 witness: deleting id 1 from the singleton store empties it and
responds 204. -/
theorem C4_delete_existing_id_witness :
    delete_user { rows := [{ id := 1, name := "Ann", email := "ann@x.com" }], nextId := 2 } 1
        none =
      ({ rows := [], nextId := 2 }, [Stmt.deleteUsers 1], Except.ok ()) := by
  have h := (C4_delete_existing_id
      { rows := [{ id := 1, name := "Ann", email := "ann@x.com" }], nextId := 2 } 1
      (by decide) (by decide)).1
  exact h.trans (by rfl)

/-- Every successfully executed statement preserves the store invariant:
INSERT appends the fresh sequence value, UPDATE keeps the id column,
DELETE only removes rows. -/
lemma storeInv_execStmt (st : Stmt) (s : Store) (h : StoreInv s) :
    StoreInv (execStmt st s).1 := by
  obtain ⟨hN, hlt⟩ := h
  cases st with
  | insertUsers n e =>
      refine ⟨?_, ?_⟩
      · show ((s.rows ++ [({ id := s.nextId, name := n, email := e } : Row)]).map
            Row.id).Nodup
        rw [List.map_append, List.nodup_append]
        refine ⟨hN, by simp, ?_⟩
        intro a ha hb
        rcases List.mem_map.mp ha with ⟨r, hr, rfl⟩
        simp only [List.map_cons, List.map_nil, List.mem_singleton] at hb
        exact absurd hb (ne_of_lt (hlt r hr))
      · intro r hr
        show r.id < s.nextId + 1
        rcases List.mem_append.mp hr with h1 | h1
        · exact (hlt r h1).trans (lt_add_one _)
        · simp only [List.mem_singleton] at h1
          subst h1
          exact lt_add_one _
  | updateUsers n e i =>
      refine ⟨?_, ?_⟩
      · show ((s.rows.map (fun r =>
            if r.id == i then { id := r.id, name := n, email := e } else r)).map
              Row.id).Nodup
        rw [update_ids_eq]
        exact hN
      · intro r hr
        show r.id < s.nextId
        rcases List.mem_map.mp hr with ⟨a, ha, rfl⟩
        have hid : ((if a.id == i then ({ id := a.id, name := n, email := e } : Row)
            else a)).id = a.id := by
          by_cases hb : a.id = i <;> simp [hb]
        rw [hid]
        exact hlt a ha
  | deleteUsers i =>
      refine ⟨?_, ?_⟩
      · show ((s.rows.filter (fun r => !(r.id == i))).map Row.id).Nodup
        exact List.Nodup.sublist (List.Sublist.map Row.id (List.filter_sublist _)) hN
      · intro r hr
        have hr2 : r ∈ s.rows := List.mem_of_mem_filter hr
        exact hlt r hr2
  | selectUsers => exact ⟨hN, hlt⟩

/-- The id sequence of the store never decreases. -/
lemma nextId_execStmt (st : Stmt) (s : Store) :
    s.nextId ≤ (execStmt st s).1.nextId := by
  cases st <;> simp [execStmt]

/-- Every entity produced by the row mapping carries a present id. -/
lemma okJson_ids_isSome (l : List Row) (u : User) (h : u ∈ l.map rowToUser) :
    u.id.isSome = true := by
  rcases List.mem_map.mp h with ⟨r, hr, rfl⟩
  rfl

/-- Any 200 list response produced by the read path has only present
ids. -/
lemma render_get_users_ids (s : Store) (f : Option String) (us : List User)
    (h : render (get_users s f) = Response.okJson us) :
    ∀ u ∈ us, u.id.isSome = true := by
  cases f with
  | some e => exact Response.noConfusion h
  | none =>
      have h2 : Response.okJson (s.rows.map rowToUser) = Response.okJson us := h
      have h3 := Response.okJson.inj h2
      subst h3
      intro u hu
      exact okJson_ids_isSome s.rows u hu

/-- The PUT handler never writes the id column, whatever the faults. -/
lemma update_user_preserves_ids (s : Store) (i : Int) (u : User)
    (f g : Option String) :
    (update_user s i u f g).1.rows.map Row.id = s.rows.map Row.id := by
  cases f with
  | some e => rfl
  | none =>
      show (s.rows.map (fun r =>
          if r.id == i then { id := r.id, name := u.name, email := u.email } else r)).map
            Row.id = s.rows.map Row.id
      exact update_ids_eq s.rows u.name u.email i

/-- C9: across every request, the store invariant is preserved — ids stay
pairwise distinct and below the sequence value — the sequence value
never decreases (ids are assigned monotonically by the store), every
user in a 200 list response carries a present (non-null) id, the POST
handler gives the same outcome whatever id the client puts in the body,
the PUT handler never changes the id column, and the startup store
satisfies the invariant.  Name and email are total strings in the model,
mirroring the NOT NULL text columns, with no uniqueness or format check
anywhere in the code. -/
theorem C9_id_invariants (s : Store) (req : Request) (h : StoreInv s) :
    StoreInv (handle s req).1 ∧
    s.nextId ≤ (handle s req).1.nextId ∧
    (∀ us, (handle s req).2.2 = Response.okJson us → ∀ u ∈ us, u.id.isSome = true) ∧
    (∀ oid n e f g,
      handle s (Request.post { id := some oid, name := n, email := e } f g) =
        handle s (Request.post { id := none, name := n, email := e } f g)) ∧
    (∀ i u2 f g, (update_user s i u2 f g).1.rows.map Row.id = s.rows.map Row.id) ∧
    StoreInv initStore := by
  have hinit : StoreInv initStore := ⟨by simp [initStore], by simp [initStore]⟩
  have hpostid : ∀ oid n e f g,
      handle s (Request.post { id := some oid, name := n, email := e } f g) =
        handle s (Request.post { id := none, name := n, email := e } f g) :=
    fun oid n e f g => rfl
  have hputid : ∀ i u2 f g,
      (update_user s i u2 f g).1.rows.map Row.id = s.rows.map Row.id :=
    fun i u2 f g => update_user_preserves_ids s i u2 f g
  cases req with
  | post u insF selF =>
      cases insF with
      | some e =>
          refine ⟨h, le_refl _, ?_, hpostid, hputid, hinit⟩
          intro us habs
          exact Response.noConfusion habs
      | none =>
          refine ⟨storeInv_execStmt _ _ h, nextId_execStmt _ _, ?_, hpostid, hputid, hinit⟩
          intro us habs
          have habs2 : render (get_users
              (execStmt (Stmt.insertUsers u.name u.email) s).1 selF) =
              Response.okJson us := habs
          exact render_get_users_ids _ selF us habs2
  | get selF =>
      refine ⟨h, le_refl _, ?_, hpostid, hputid, hinit⟩
      intro us habs
      have habs2 : render (get_users s selF) = Response.okJson us := habs
      exact render_get_users_ids s selF us habs2
  | put seg u updF selF =>
      cases hp : parseI32 seg with
      | none =>
          have hh : handle s (Request.put seg u updF selF) = (s, [], Response.notFound) := by
            simp [handle, hp]
          rw [hh]
          refine ⟨h, le_refl _, ?_, hpostid, hputid, hinit⟩
          intro us habs
          exact Response.noConfusion habs
      | some i =>
          have hh : handle s (Request.put seg u updF selF) =
              ((update_user s i u updF selF).1, (update_user s i u updF selF).2.1,
               render (update_user s i u updF selF).2.2) := by
            simp [handle, hp]
          rw [hh]
          cases updF with
          | some e =>
              refine ⟨h, le_refl _, ?_, hpostid, hputid, hinit⟩
              intro us habs
              exact Response.noConfusion habs
          | none =>
              refine ⟨storeInv_execStmt _ _ h, nextId_execStmt _ _, ?_, hpostid, hputid,
                hinit⟩
              intro us habs
              have habs2 : render (get_users
                  (execStmt (Stmt.updateUsers u.name u.email i) s).1 selF) =
                  Response.okJson us := habs
              exact render_get_users_ids _ selF us habs2
  | del seg delF =>
      cases hp : parseI32 seg with
      | none =>
          have hh : handle s (Request.del seg delF) = (s, [], Response.notFound) := by
            simp [handle, hp]
          rw [hh]
          refine ⟨h, le_refl _, ?_, hpostid, hputid, hinit⟩
          intro us habs
          exact Response.noConfusion habs
      | some i =>
          have hh : handle s (Request.del seg delF) =
              ((delete_user s i delF).1, (delete_user s i delF).2.1,
               renderDelete (delete_user s i delF).2.2) := by
            simp [handle, hp]
          rw [hh]
          cases delF with
          | some e =>
              refine ⟨h, le_refl _, ?_, hpostid, hputid, hinit⟩
              intro us habs
              exact Response.noConfusion habs
          | none =>
              refine ⟨storeInv_execStmt _ _ h, nextId_execStmt _ _, ?_, hpostid, hputid,
                hinit⟩
              intro us habs
              exact Response.noConfusion habs

/-- C9 witness: the invariant holds after posting Ann to the startup
store. -/
theorem C9_id_invariants_witness :
    StoreInv (handle initStore
      (Request.post { id := none, name := "Ann", email := "ann@x.com" } none none)).1 :=
  (C9_id_invariants initStore
    (Request.post { id := none, name := "Ann", email := "ann@x.com" } none none)
    ⟨by simp [initStore], by simp [initStore]⟩).1
